import Mathlib

/-
Verification of the training-loop control core of xnmt
(src/xnmt/training_task.py and src/xnmt/linear.py).

The Python classes are shallowly embedded as Lean structures and pure
functions.  External collaborators (the batcher, numpy shuffling, the
corpus parser, dynet expressions, subprocesses) are modelled as function
fields or explicit oracle inputs; randomness (random.randint) is modelled
by passing the drawn value as an explicit argument.  Side effects that the
source performs for their ordering (reseeding, repacking, shuffling,
event notification, subprocess launch/wait/poll) are recorded in an
explicit event trace.
-/

namespace Xnmt

/-- TrainingState (training_task.py lines 352-362): the mutable record that
holds the state of the training loop.  All counters start at 0; the
epoch_seed is drawn externally (random.randint(1,2147483647)). -/
structure TrainingState where
  num_times_lr_decayed : Nat
  cur_attempt : Nat
  epoch_num : Nat
  steps_into_epoch : Nat
  epoch_seed : Nat
  deriving Repr, DecidableEq

/-- Observable side effects of advance_epoch / _augment_data_next_epoch,
in the order the source performs them.  launch carries the epoch number
appended to the reload command; reseed carries the freshly drawn seed;
notify carries the sentence count passed to the new_epoch event. -/
inductive Event where
  | launch (epoch : Nat)
  | waitEv
  | pollEv
  | reloadCorpus
  | reseed (seed : Nat)
  | repack
  | shuffleEv
  | notify (numSents : Nat)
  deriving Repr, DecidableEq

/-- SimpleTrainingTask (training_task.py lines 65-350), restricted to the
fields the control logic reads or writes.  S and T are the (opaque) source
and target sentence types; a batch is a list of sentences.  Collaborators:
pack models batcher.pack as run after np.random.seed(epoch_seed) (so it is
a function of the seed and the data); shuffle models np.random.shuffle of
list(range n) under the epoch seed; readCorpusFn models
corpus_parser._read_training_corpus; model_file_present records whether
self.model_file is not None; augmentation_handle records whether a
subprocess handle is outstanding, its poll result being an oracle input. -/
structure SimpleTrainingTask (S T : Type) where
  lr_decay : ℚ
  lr_decay_times : Nat
  patience : Nat
  initial_patience : Option Nat
  run_for_epochs : Nat
  restart_trainer : Bool
  reload_command : Option String
  model_file_present : Bool
  early_stopping_reached : Bool
  training_state : TrainingState
  learning_rate : ℚ
  trainer_restart_count : Nat
  src_data : List S
  trg_data : List T
  src_batches : List (List S)
  trg_batches : List (List T)
  minibatch_order : List Nat
  augmentation_handle : Option Unit
  corpus_parser_corpus : List S × List T
  readCorpusFn : List S × List T → List S × List T
  pack : Nat → List S → List T → List (List S) × List (List T)
  shuffle : Nat → Nat → List Nat

variable {S T : Type}

/-- Constructor validation (lines 105-106): __init__ raises RuntimeError
unless 0.0 < lr_decay <= 1.0.  Returns true iff the value is accepted. -/
def lr_decay_valid (d : ℚ) : Bool :=
  !(decide (d > 1) || decide (d ≤ 0))

/-- cur_num_minibatches (lines 225-229): len(self.src_batches). -/
def cur_num_minibatches (t : SimpleTrainingTask S T) : Nat :=
  t.src_batches.length

/-- cur_num_sentences (lines 231-235): len(self.src_data). -/
def cur_num_sentences (t : SimpleTrainingTask S T) : Nat :=
  t.src_data.length

/-- should_stop_training (lines 217-223): stop when early stopping was
marked, or the requested number of epochs is exhausted (with the off-by-one
comparison steps_into_epoch >= cur_num_minibatches()-1 on the final epoch).
The Python expression steps >= len-1 uses integer arithmetic; for len = 0
both the Int and the Nat truncated subtraction give a true comparison, so
Nat subtraction is faithful here. -/
def should_stop_training (t : SimpleTrainingTask S T) : Bool :=
  t.early_stopping_reached
    || decide (t.training_state.epoch_num > t.run_for_epochs)
    || (decide (t.training_state.epoch_num = t.run_for_epochs)
        && decide (t.training_state.steps_into_epoch ≥ cur_num_minibatches t - 1))

/-- The should_decay flag computed by checkpoint (lines 332-336): the two
sequential if statements that may set should_decay = True, written as one
disjunction.  attempt is the already incremented cur_attempt. -/
def should_decay_cond (ip : Option Nat) (pat decayed attempt : Nat) : Bool :=
  ((ip.isNone || decide (decayed > 0)) && decide (attempt ≥ pat))
    || (ip.isSome && decide (decayed = 0) && decide (attempt ≥ ip.getD 0))

/-- checkpoint (lines 296-350), learning-schedule control only.  The dev
evaluation is delegated to external dev tasks; improved stands for the
result of logger.report_dev_and_check_model (true iff the primary dev
score improved on the best so far).  Returns the updated task and the
needs-saving flag.  trainer.restart() and revert_to_best_model() are
external collaborator calls, recorded by incrementing
trainer_restart_count. -/
def checkpoint (t : SimpleTrainingTask S T) (control improved : Bool) :
    SimpleTrainingTask S T × Bool :=
  if control then
    if improved then
      ({ t with training_state := { t.training_state with cur_attempt := 0 } },
       t.model_file_present)
    else
      let ts := { t.training_state with
                    cur_attempt := t.training_state.cur_attempt + 1 }
      if t.lr_decay < 1 then
        if should_decay_cond t.initial_patience t.patience
            ts.num_times_lr_decayed ts.cur_attempt then
          let ts2 := { ts with
                         num_times_lr_decayed := ts.num_times_lr_decayed + 1 }
          if ts2.num_times_lr_decayed > t.lr_decay_times then
            ({ t with training_state := ts2, early_stopping_reached := true },
             false)
          else
            if t.restart_trainer then
              ({ t with training_state := ts2,
                        learning_rate := t.learning_rate * t.lr_decay,
                        trainer_restart_count := t.trainer_restart_count + 1 },
               false)
            else
              ({ t with training_state := ts2,
                        learning_rate := t.learning_rate * t.lr_decay },
               false)
        else
          ({ t with training_state := ts }, false)
      else
        ({ t with training_state := ts }, false)
  else
    (t, false)

/-- Iterated non-improving checkpoints with control_learning_schedule=True,
used to state that cur_attempt grows without bound. -/
def checkpointFailN (t : SimpleTrainingTask S T) : Nat → SimpleTrainingTask S T
  | 0 => t
  | n + 1 => (checkpoint (checkpointFailN t n) true false).1

/-- Common tail of _augment_data_next_epoch (lines 196-206): poll the
handle; if returncode is not None, reload the corpus through the corpus
parser collaborator and relaunch the command in the background (no wait);
otherwise keep training on the previous data.  retcode is the value of
self._augmentation_handle.returncode after the poll (an oracle input,
since the subprocess is external). -/
def augTail (t : SimpleTrainingTask S T) (retcode : Option Int) :
    SimpleTrainingTask S T × List Event :=
  match retcode with
  | some _ =>
      ({ t with corpus_parser_corpus := t.readCorpusFn t.corpus_parser_corpus,
                augmentation_handle := some () },
       [Event.pollEv, Event.reloadCorpus,
        Event.launch t.training_state.epoch_num])
  | none => (t, [Event.pollEv])

/-- _augment_data_next_epoch (lines 186-206).  When no handle is
outstanding, the command is launched and waited for (blocking); after
wait() the returncode is necessarily set, so the subsequent poll takes the
reload branch (modelled with the placeholder exit code 0, whose value the
source never inspects).  When a handle is outstanding the poll result is
the oracle input pollRes. -/
def augment_data_next_epoch (t : SimpleTrainingTask S T) (pollRes : Option Int) :
    SimpleTrainingTask S T × List Event :=
  match t.augmentation_handle with
  | none =>
      let t1 := { t with augmentation_handle := some () }
      let r := augTail t1 (some 0)
      (r.1, [Event.launch t.training_state.epoch_num, Event.waitEv] ++ r.2)
  | some _ =>
      augTail t pollRes

/-- advance_epoch (lines 237-252): optionally refresh augmented data, draw
a fresh epoch seed (newSeed models the return value of
random.randint(1,2147483647)), reseed the random source, repack batches
from the current corpus, bump epoch_num, reset steps_into_epoch, shuffle
the minibatch order for the repacked batch count, and fire the new_epoch
notification with the current sentence count. -/
def advance_epoch (t : SimpleTrainingTask S T) (newSeed : Nat)
    (pollRes : Option Int) : SimpleTrainingTask S T × List Event :=
  let t0 := match t.reload_command with
            | some _ => (augment_data_next_epoch t pollRes).1
            | none => t
  let ev0 := match t.reload_command with
             | some _ => (augment_data_next_epoch t pollRes).2
             | none => []
  let packed := t0.pack newSeed t0.src_data t0.trg_data
  let order := t0.shuffle newSeed packed.1.length
  let t1 := { t0 with
                training_state := { t0.training_state with
                                      epoch_seed := newSeed,
                                      epoch_num := t0.training_state.epoch_num + 1,
                                      steps_into_epoch := 0 },
                src_batches := packed.1,
                trg_batches := packed.2,
                minibatch_order := order }
  (t1, ev0 ++ [Event.reseed newSeed, Event.repack, Event.shuffleEv,
               Event.notify (cur_num_sentences t1)])

/-- The augmentation event prefix of an advance_epoch call (empty when no
reload command is configured). -/
def augEvents (t : SimpleTrainingTask S T) (pollRes : Option Int) : List Event :=
  match t.reload_command with
  | some _ => (augment_data_next_epoch t pollRes).2
  | none => []

/-- Replace steps_into_epoch, leaving everything else unchanged. -/
def withSteps (t : SimpleTrainingTask S T) (n : Nat) : SimpleTrainingTask S T :=
  { t with training_state := { t.training_state with steps_into_epoch := n } }

/-- The statement self.training_state.steps_into_epoch += 1 executed by the
generator body when it is resumed after a yield (line 265). -/
def incSteps (t : SimpleTrainingTask S T) : SimpleTrainingTask S T :=
  withSteps t (t.training_state.steps_into_epoch + 1)

/-- Suspension state of the next_minibatch generator (lines 254-265):
the task, the still unconsumed suffix of minibatch_order for the current
epoch, and whether a yield has been handed out whose steps_into_epoch
increment is still pending (it runs when the generator is resumed). -/
structure Cursor (S T : Type) where
  task : SimpleTrainingTask S T
  remaining : List Nat
  pendingInc : Bool

/-- A next_minibatch generator that has been created but not yet pulled. -/
def freshCursor (t : SimpleTrainingTask S T) : Cursor S T :=
  ⟨t, [], false⟩

/-- One pull on the next_minibatch generator.  On resume the pending
steps_into_epoch increment runs first; if the current permutation is
exhausted, advance_epoch runs (consuming the oracle input inp = (fresh
seed, poll result)) before the next pair is yielded.  Returns the yielded
pair, the new suspension state, and the number of advance_epoch calls this
pull performed.  none models the diverging run on an empty epoch (the
generator would loop in advance_epoch without yielding) or an out-of-range
batch index (an IndexError in the source). -/
def pull (c : Cursor S T) (inp : Nat × Option Int) :
    Option ((List S × List T) × Cursor S T × Nat) :=
  let t0 := if c.pendingInc then incSteps c.task else c.task
  match c.remaining with
  | b :: rest =>
      match t0.src_batches.get? b, t0.trg_batches.get? b with
      | some sb, some tb => some ((sb, tb), ⟨t0, rest, true⟩, 0)
      | _, _ => none
  | [] =>
      let t1 := (advance_epoch t0 inp.1 inp.2).1
      match t1.minibatch_order with
      | [] => none
      | b :: rest =>
          match t1.src_batches.get? b, t1.trg_batches.get? b with
          | some sb, some tb => some ((sb, tb), ⟨t1, rest, true⟩, 1)
          | _, _ => none

/-- Iterate pull over a list of oracle inputs, recording for each pull the
steps_into_epoch value the consumer observes alongside the yielded pair
and the number of advance_epoch calls that pull triggered. -/
def pullTrace (c : Cursor S T) :
    List (Nat × Option Int) → Option (List (Nat × Nat) × Cursor S T)
  | [] => some ([], c)
  | i :: is =>
      match pull c i with
      | none => none
      | some (_, c1, a) =>
          match pullTrace c1 is with
          | none => none
          | some (tr, cf) =>
              some ((c1.task.training_state.steps_into_epoch, a) :: tr, cf)

/-- The paired iteration of read_training_corpus (lines 156-165) on the
already-read sentence streams: six.moves.zip_longest over both iterators,
raising when either stream is exhausted before the other, and appending a
pair only when both length filters accept it.  filter_ids is None on the
only reachable path (sample_train_sents is set to False and
max_num_train_sents to None in __init__, lines 130-131, so the count-based
mismatch branches at lines 147-153 are dead).  The fatal RuntimeError is
modelled as Except.error, which carries no partial corpus. -/
def zipRead (lenS : S → Nat) (lenT : T → Nat) (maxS maxT : Option Nat) :
    List S → List T → Except String (List S × List T)
  | [], [] => Except.ok ([], [])
  | [], _ :: _ =>
      Except.error "training src sentences do not match trg sentences"
  | _ :: _, [] =>
      Except.error "training src sentences do not match trg sentences"
  | s :: ss, t :: ts =>
      match zipRead lenS lenT maxS maxT ss ts with
      | Except.error e => Except.error e
      | Except.ok (as, bs) =>
          if (maxS.all fun m => decide (lenS s ≤ m))
              && (maxT.all fun m => decide (lenT t ≤ m)) then
            Except.ok (s :: as, t :: bs)
          else
            Except.ok (as, bs)

/-- read_training_corpus (lines 142-173), data-loading part: src and trg
are the contents of the read_sents iterators for the source and target
files; the result is (src_data, trg_data).  The subsequent freeze() and
pack() calls operate on collaborators and do not affect the loaded lists. -/
def read_training_corpus (lenS : S → Nat) (lenT : T → Nat)
    (maxS maxT : Option Nat) (src : List S) (trg : List T) :
    Except String (List S × List T) :=
  zipRead lenS lenT maxS maxT src trg

/-- True on an error result. -/
def isErr : Except String (List S × List T) → Bool
  | Except.error _ => true
  | Except.ok _ => false

/-- On a normal return the loaded lists have equal length. -/
def okLenEq : Except String (List S × List T) → Prop
  | Except.ok (as, bs) => as.length = bs.length
  | Except.error _ => True

/-- A dynet scalar expression, modelled by its value together with the set
of parameter identifiers its backward pass would reach.  dy.nobackprop
blocks the gradient path, which is modelled by emptying that set. -/
structure DyExpr where
  value : ℚ
  grads : Finset Nat
  deriving DecidableEq

/-- Expression addition: values add, gradient paths merge. -/
def addE (a b : DyExpr) : DyExpr :=
  ⟨a.value + b.value, a.grads ∪ b.grads⟩

/-- Expression negation keeps the gradient path. -/
def negE (a : DyExpr) : DyExpr :=
  ⟨-a.value, a.grads⟩

/-- dy.nobackprop: same value, gradient path severed. -/
def nobackpropE (a : DyExpr) : DyExpr :=
  ⟨a.value, ∅⟩

/-- Modelled from the spec: xnmt.loss.LossBuilder is imported by
training_task.py but its source is not under src/.  Per the spec (section
4.3 and the Loss record of section 3) it records named loss components;
add_loss appends a named component and compute returns the combined
scalar, the sum of all recorded components. -/
structure LossBuilder where
  loss_nodes : List (String × DyExpr)

/-- Modelled from the spec: LossBuilder.add_loss records one named
component. -/
def add_loss (b : LossBuilder) (name : String) (e : DyExpr) : LossBuilder :=
  ⟨b.loss_nodes ++ [(name, e)]⟩

/-- Modelled from the spec: LossBuilder.compute returns the combined
scalar over all recorded components. -/
def computeLoss (b : LossBuilder) : ℚ :=
  (b.loss_nodes.map fun p => p.2.value).sum

/-- The fold of lines 275-277: loss = loss_expr if not loss else
loss + loss_expr, over the named nodes of a bundle.  none models the
Python None that survives an empty bundle. -/
def foldSum (nodes : List (String × DyExpr)) : Option DyExpr :=
  nodes.foldl
    (fun acc p => match acc with
                  | none => some p.2
                  | some l => some (addE l p.2))
    none

/-- training_step (lines 267-291).  The model forward pass is external:
primary is the result of model.calc_loss (either a single scalar, inl, or
a LossBuilder bundle given by its loss_nodes, inr), and calc_additional
models model.calc_additional_loss, applied to
dy.nobackprop(-standard_loss).  Returns the computed loss value and the
recorded breakdown; none models the crash on an empty bundle (negating
None).  The logger updates (lines 288-289) are external reporting calls. -/
def training_step (primary : DyExpr ⊕ List (String × DyExpr))
    (calc_additional : DyExpr → Option DyExpr) :
    Option (ℚ × List (String × DyExpr)) :=
  match primary with
  | Sum.inl s =>
      let b := add_loss ⟨[]⟩ "loss" s
      let b2 := match calc_additional (nobackpropE (negE s)) with
                | some a => add_loss b "additional_loss" a
                | none => b
      some (computeLoss b2, b2.loss_nodes)
  | Sum.inr nodes =>
      let b := nodes.foldl (fun acc p => add_loss acc p.1 p.2) ⟨[]⟩
      match foldSum nodes with
      | none => none
      | some sLoss =>
          let b2 := match calc_additional (nobackpropE (negE sLoss)) with
                    | some a => add_loss b "additional_loss" a
                    | none => b
          some (computeLoss b2, b2.loss_nodes)

/-! Concrete tasks used to instantiate the theorems. -/

/-- A concrete task at S = T = Nat: 3 sentences packed into 3 singleton
batches, identity-style collaborators, freshly constructed training
state. -/
def baseTask : SimpleTrainingTask Nat Nat where
  lr_decay := 1/2
  lr_decay_times := 3
  patience := 1
  initial_patience := none
  run_for_epochs := 2
  restart_trainer := false
  reload_command := none
  model_file_present := true
  early_stopping_reached := false
  training_state := ⟨0, 0, 0, 0, 1⟩
  learning_rate := 1
  trainer_restart_count := 0
  src_data := [1, 2, 3]
  trg_data := [1, 2, 3]
  src_batches := [[1], [2], [3]]
  trg_batches := [[1], [2], [3]]
  minibatch_order := [0, 1, 2]
  augmentation_handle := none
  corpus_parser_corpus := ([], [])
  readCorpusFn := id
  pack := fun _ s t => (s.map fun x => [x], t.map fun x => [x])
  shuffle := fun _ n => List.range n

/-- baseTask with early stopping already marked: epochs remain but
should_stop_training is nevertheless true. -/
def c1task : SimpleTrainingTask Nat Nat :=
  { baseTask with early_stopping_reached := true }

/-- baseTask with epoch_num = e and steps_into_epoch = s, run_for_epochs=2
and 3 batches per epoch. -/
def stopDemoTask (e s : Nat) : SimpleTrainingTask Nat Nat :=
  { baseTask with training_state := ⟨0, 0, e, s, 1⟩ }

/-- baseTask with lr_decay = 1.0, the value the constructor validation
accepts but which disables the whole decay branch of checkpoint. -/
def c2task : SimpleTrainingTask Nat Nat :=
  { baseTask with lr_decay := 1 }

/-- C1 counterexample: with early_stopping_reached set, epoch_num = 0,
run_for_epochs = 2 and 3 batches, should_stop_training() returns true
although the claimed right-hand side (which omits the early-stopping
disjunct of line 221) is false. -/
theorem should_stop_training_cx :
    should_stop_training c1task = true
    ∧ ¬(c1task.training_state.epoch_num > c1task.run_for_epochs
        ∨ (c1task.training_state.epoch_num = c1task.run_for_epochs
           ∧ (c1task.training_state.steps_into_epoch : ℤ)
               ≥ (cur_num_minibatches c1task : ℤ) - 1)) := by
  decide

/-- C1 (amended): should_stop_training() returns true iff
early_stopping_reached is set, or epoch_num > run_for_epochs, or
epoch_num = run_for_epochs and steps_into_epoch >= cur_num_minibatches()-1;
in particular, with early stopping unreached, run_for_epochs = 2 and 3
batches per epoch, it first becomes true when steps_into_epoch reaches 2
within epoch 2. -/
theorem should_stop_training_iff (t : SimpleTrainingTask S T) (e s : Nat) :
    (should_stop_training t = true ↔
      (t.early_stopping_reached = true
        ∨ t.training_state.epoch_num > t.run_for_epochs
        ∨ (t.training_state.epoch_num = t.run_for_epochs
           ∧ (t.training_state.steps_into_epoch : ℤ)
               ≥ (cur_num_minibatches t : ℤ) - 1)))
    ∧ (should_stop_training (stopDemoTask e s) = true
        ↔ (e > 2 ∨ (e = 2 ∧ s ≥ 2))) := by
  constructor
  · cases h : t.early_stopping_reached <;>
      simp [should_stop_training, h, cur_num_minibatches] <;>
      omega
  · simp [should_stop_training, stopDemoTask, baseTask, cur_num_minibatches]

/-- Whether a distinct initial patience was configured, in the sense of
the claim: an initial_patience value was given and differs from
patience. -/
def distinct_initial_patience (ip : Option Nat) (pat : Nat) : Bool :=
  match ip with
  | none => false
  | some q => decide (q ≠ pat)

/-- The decay-trigger condition exactly as the claim words it (spec-side
transcription, for comparison against should_decay_cond from the source):
(a) attempt >= patience and (no distinct initial_patience configured or at
least one decay already occurred), or (b) a distinct initial_patience was
configured, no decay occurred yet, and attempt >= initial_patience. -/
def specDecayCond (ip : Option Nat) (pat decayed attempt : Nat) : Bool :=
  (decide (attempt ≥ pat)
      && (!(distinct_initial_patience ip pat) || decide (decayed > 0)))
    || (distinct_initial_patience ip pat && decide (decayed = 0)
      && decide (attempt ≥ ip.getD 0))

/-- Evaluation of checkpoint with control_learning_schedule=True on an
improving checkpoint. -/
theorem checkpoint_eval_improved (t : SimpleTrainingTask S T) :
    checkpoint t true true =
      ({ t with training_state := { t.training_state with cur_attempt := 0 } },
       t.model_file_present) := rfl

/-- Evaluation of checkpoint with control_learning_schedule=True on a
non-improving checkpoint, with the boolean literals reduced and the local
ts / ts2 bindings inlined. -/
theorem checkpoint_eval_fail (t : SimpleTrainingTask S T) :
    checkpoint t true false =
      (if t.lr_decay < 1 then
        (if should_decay_cond t.initial_patience t.patience
            t.training_state.num_times_lr_decayed
            (t.training_state.cur_attempt + 1) then
          (if t.training_state.num_times_lr_decayed + 1 > t.lr_decay_times then
            ({ t with
                 training_state := { t.training_state with
                   num_times_lr_decayed :=
                     t.training_state.num_times_lr_decayed + 1,
                   cur_attempt := t.training_state.cur_attempt + 1 },
                 early_stopping_reached := true }, false)
          else
            (if t.restart_trainer then
              ({ t with
                   training_state := { t.training_state with
                     num_times_lr_decayed :=
                       t.training_state.num_times_lr_decayed + 1,
                     cur_attempt := t.training_state.cur_attempt + 1 },
                   learning_rate := t.learning_rate * t.lr_decay,
                   trainer_restart_count := t.trainer_restart_count + 1 },
               false)
            else
              ({ t with
                   training_state := { t.training_state with
                     num_times_lr_decayed :=
                       t.training_state.num_times_lr_decayed + 1,
                     cur_attempt := t.training_state.cur_attempt + 1 },
                   learning_rate := t.learning_rate * t.lr_decay }, false)))
        else
          ({ t with training_state := { t.training_state with
               cur_attempt := t.training_state.cur_attempt + 1 } }, false))
      else
        ({ t with training_state := { t.training_state with
             cur_attempt := t.training_state.cur_attempt + 1 } }, false)) := rfl

/-- Evaluation of checkpoint with control_learning_schedule=False:
evaluation-only mode, no state change. -/
theorem checkpoint_eval_no_control (t : SimpleTrainingTask S T) (i : Bool) :
    checkpoint t false i = (t, false) := rfl

/-- The source condition and the claim condition agree. -/
theorem should_decay_cond_iff_spec (ip : Option Nat) (pat decayed attempt : Nat) :
    should_decay_cond ip pat decayed attempt = true
      ↔ specDecayCond ip pat decayed attempt = true := by
  cases ip <;>
    simp [should_decay_cond, specDecayCond, distinct_initial_patience] <;>
    omega

/-- C2 counterexample: with lr_decay = 1.0 (accepted by the constructor),
patience = 1, no initial_patience and a non-improving checkpoint, the
condition claimed to trigger a decay holds, yet checkpoint() does not
decay (lines 331-336 are guarded by lr_decay < 1.0, which the claim
omits). -/
theorem checkpoint_decay_cx :
    specDecayCond c2task.initial_patience c2task.patience
        c2task.training_state.num_times_lr_decayed
        (c2task.training_state.cur_attempt + 1) = true
    ∧ (checkpoint c2task true false).1.training_state.num_times_lr_decayed
        = c2task.training_state.num_times_lr_decayed := by
  decide

/-- C2 (amended): provided lr_decay < 1.0 (a decay schedule is enabled),
a checkpoint(control_learning_schedule=True) whose dev score does not
improve triggers a learning-rate decay exactly when the claimed two-tier
patience condition holds of the incremented cur_attempt, and an improving
checkpoint resets cur_attempt to 0. -/
theorem checkpoint_decay_iff (t : SimpleTrainingTask S T)
    (h : t.lr_decay < 1) :
    (checkpoint t true true).1.training_state.cur_attempt = 0
    ∧ ((checkpoint t true false).1.training_state.num_times_lr_decayed
          = t.training_state.num_times_lr_decayed + 1
        ↔ specDecayCond t.initial_patience t.patience
            t.training_state.num_times_lr_decayed
            (t.training_state.cur_attempt + 1) = true) := by
  refine ⟨by simp [checkpoint_eval_improved], ?_⟩
  rw [← should_decay_cond_iff_spec, checkpoint_eval_fail, if_pos h]
  by_cases hd : should_decay_cond t.initial_patience t.patience
      t.training_state.num_times_lr_decayed
      (t.training_state.cur_attempt + 1) = true
  · rw [if_pos hd]
    split_ifs <;> simp [hd]
  · rw [if_neg hd]
    simp [hd]

/-- C3: on an eligible decay inside checkpoint(), num_times_lr_decayed is
incremented; if the incremented value exceeds lr_decay_times, early
stopping is set and the learning rate is untouched, otherwise the learning
rate is multiplied by the decay factor and early stopping is untouched;
and num_times_lr_decayed never decreases under any checkpoint call. -/
theorem checkpoint_decay_effects (t : SimpleTrainingTask S T) (c i : Bool)
    (hd : t.lr_decay < 1)
    (he : should_decay_cond t.initial_patience t.patience
        t.training_state.num_times_lr_decayed
        (t.training_state.cur_attempt + 1) = true) :
    (checkpoint t true false).1.training_state.num_times_lr_decayed
        = t.training_state.num_times_lr_decayed + 1
    ∧ (checkpoint t true false).1.early_stopping_reached
        = (if t.training_state.num_times_lr_decayed + 1 > t.lr_decay_times
           then true else t.early_stopping_reached)
    ∧ (checkpoint t true false).1.learning_rate
        = (if t.training_state.num_times_lr_decayed + 1 > t.lr_decay_times
           then t.learning_rate else t.learning_rate * t.lr_decay)
    ∧ t.training_state.num_times_lr_decayed
        ≤ (checkpoint t c i).1.training_state.num_times_lr_decayed := by
  refine ⟨?_, ?_, ?_, ?_⟩
  · rw [checkpoint_eval_fail, if_pos hd, if_pos he]
    split_ifs <;> rfl
  · rw [checkpoint_eval_fail, if_pos hd, if_pos he]
    split_ifs <;> rfl
  · rw [checkpoint_eval_fail, if_pos hd, if_pos he]
    split_ifs <;> rfl
  · rcases c
    · rw [checkpoint_eval_no_control]
    · rcases i
      · rw [checkpoint_eval_fail]
        split_ifs <;> simp
      · rw [checkpoint_eval_improved]

/-- C2 witness at baseTask (lr_decay = 1/2, patience = 1, no
initial_patience, fresh state). -/
theorem checkpoint_decay_iff_witness :
    baseTask.lr_decay < 1
    ∧ ((checkpoint baseTask true true).1.training_state.cur_attempt = 0
      ∧ ((checkpoint baseTask true false).1.training_state.num_times_lr_decayed
            = baseTask.training_state.num_times_lr_decayed + 1
          ↔ specDecayCond baseTask.initial_patience baseTask.patience
              baseTask.training_state.num_times_lr_decayed
              (baseTask.training_state.cur_attempt + 1) = true)) :=
  ⟨by norm_num [baseTask], checkpoint_decay_iff baseTask (by norm_num [baseTask])⟩

/-- Task for the early-stop boundary: lr_decay_times = 2 and two decays
already performed, so the next eligible decay is the third. -/
def t3task : SimpleTrainingTask Nat Nat :=
  { baseTask with lr_decay_times := 2, training_state := ⟨2, 0, 0, 0, 1⟩ }

/-- C3 witness: with lr_decay_times = 2 and num_times_lr_decayed = 2, the
third eligible decay sets early stopping and leaves the learning rate
unchanged. -/
theorem checkpoint_decay_effects_witness :
    t3task.lr_decay < 1
    ∧ should_decay_cond t3task.initial_patience t3task.patience
        t3task.training_state.num_times_lr_decayed
        (t3task.training_state.cur_attempt + 1) = true
    ∧ ((checkpoint t3task true false).1.training_state.num_times_lr_decayed
          = t3task.training_state.num_times_lr_decayed + 1
      ∧ (checkpoint t3task true false).1.early_stopping_reached
          = (if t3task.training_state.num_times_lr_decayed + 1
                > t3task.lr_decay_times
             then true else t3task.early_stopping_reached)
      ∧ (checkpoint t3task true false).1.learning_rate
          = (if t3task.training_state.num_times_lr_decayed + 1
                > t3task.lr_decay_times
             then t3task.learning_rate
             else t3task.learning_rate * t3task.lr_decay)
      ∧ t3task.training_state.num_times_lr_decayed
          ≤ (checkpoint t3task true true).1.training_state.num_times_lr_decayed) :=
  ⟨by norm_num [t3task, baseTask], by decide,
   checkpoint_decay_effects t3task true true (by norm_num [t3task, baseTask])
     (by decide)⟩

/-- checkpoint never changes the configured decay factor. -/
theorem checkpoint_lr_decay_eq (t : SimpleTrainingTask S T) (c i : Bool) :
    (checkpoint t c i).1.lr_decay = t.lr_decay := by
  rcases c
  · rw [checkpoint_eval_no_control]
  · rcases i
    · rw [checkpoint_eval_fail]
      split_ifs <;> rfl
    · rw [checkpoint_eval_improved]

/-- With lr_decay = 1.0 a non-improving controlled checkpoint only
increments cur_attempt. -/
theorem checkpoint_fail_lr_one (t : SimpleTrainingTask S T)
    (h : t.lr_decay = 1) :
    (checkpoint t true false).1 =
      { t with training_state := { t.training_state with
          cur_attempt := t.training_state.cur_attempt + 1 } } := by
  rw [checkpoint_eval_fail, if_neg]
  rw [h]
  exact lt_irrefl 1

/-- C10: with lr_decay = 1.0 (accepted by the constructor validation of
lines 105-106) no controlled checkpoint enters the decay branch:
num_times_lr_decayed, the learning rate and early_stopping_reached are
untouched, while cur_attempt still increments by one per non-improving
checkpoint, hence grows without bound over iterated non-improving
checkpoints. -/
theorem checkpoint_lr_decay_one (t : SimpleTrainingTask S T)
    (improved : Bool) (n : Nat) (h : t.lr_decay = 1) :
    lr_decay_valid 1 = true
    ∧ (checkpoint t true improved).1.training_state.num_times_lr_decayed
        = t.training_state.num_times_lr_decayed
    ∧ (checkpoint t true improved).1.learning_rate = t.learning_rate
    ∧ (checkpoint t true improved).1.early_stopping_reached
        = t.early_stopping_reached
    ∧ (checkpoint t true false).1.training_state.cur_attempt
        = t.training_state.cur_attempt + 1
    ∧ (checkpointFailN t n).training_state.cur_attempt
        = t.training_state.cur_attempt + n := by
  have main : ∀ m, (checkpointFailN t m).training_state.cur_attempt
        = t.training_state.cur_attempt + m
      ∧ (checkpointFailN t m).lr_decay = 1 := by
    intro m
    induction m with
    | zero => exact ⟨rfl, h⟩
    | succ k ih =>
        constructor
        · show (checkpoint (checkpointFailN t k) true false).1.training_state.cur_attempt = _
          rw [checkpoint_fail_lr_one _ ih.2]
          show (checkpointFailN t k).training_state.cur_attempt + 1 = _
          rw [ih.1]
          omega
        · show (checkpoint (checkpointFailN t k) true false).1.lr_decay = 1
          rw [checkpoint_lr_decay_eq]
          exact ih.2
  refine ⟨by decide, ?_, ?_, ?_, ?_, (main n).1⟩ <;> rcases improved <;>
    simp [checkpoint_fail_lr_one t h, checkpoint_eval_improved]

/-- C10 witness at c2task (lr_decay = 1.0), three non-improving
checkpoints. -/
theorem checkpoint_lr_decay_one_witness :
    c2task.lr_decay = 1
    ∧ (lr_decay_valid 1 = true
      ∧ (checkpoint c2task true false).1.training_state.num_times_lr_decayed
          = c2task.training_state.num_times_lr_decayed
      ∧ (checkpoint c2task true false).1.learning_rate = c2task.learning_rate
      ∧ (checkpoint c2task true false).1.early_stopping_reached
          = c2task.early_stopping_reached
      ∧ (checkpoint c2task true false).1.training_state.cur_attempt
          = c2task.training_state.cur_attempt + 1
      ∧ (checkpointFailN c2task 3).training_state.cur_attempt
          = c2task.training_state.cur_attempt + 3) :=
  ⟨rfl, checkpoint_lr_decay_one c2task false 3 rfl⟩

/-- C8: read_training_corpus raises its fatal error exactly when the
paired iteration finds one stream exhausted before the other (i.e. the
two streams have different lengths), and on a normal return the loaded
src_data and trg_data have equal length.  The Except.error result carries
no partial corpus. -/
theorem read_training_corpus_spec (lenS : S → Nat) (lenT : T → Nat)
    (maxS maxT : Option Nat) (src : List S) (trg : List T) :
    (isErr (read_training_corpus lenS lenT maxS maxT src trg) = true
      ↔ src.length ≠ trg.length)
    ∧ okLenEq (read_training_corpus lenS lenT maxS maxT src trg) := by
  induction src generalizing trg with
  | nil =>
      cases trg with
      | nil => simp [read_training_corpus, zipRead, isErr, okLenEq]
      | cons t ts => simp [read_training_corpus, zipRead, isErr, okLenEq]
  | cons s ss ih =>
      cases trg with
      | nil => simp [read_training_corpus, zipRead, isErr, okLenEq]
      | cons t ts =>
          obtain ⟨ih1, ih2⟩ := ih ts
          simp only [read_training_corpus] at ih1 ih2 ⊢
          cases hz : zipRead lenS lenT maxS maxT ss ts with
          | error e =>
              rw [hz] at ih1
              simp only [isErr] at ih1
              constructor
              · simp only [zipRead, hz, isErr]
                simp only [List.length_cons]
                constructor
                · intro _
                  have := ih1.mp trivial
                  omega
                · intro _
                  trivial
              · simp [zipRead, hz, okLenEq]
          | ok p =>
              rw [hz] at ih1 ih2
              simp only [isErr] at ih1
              have hlen : ss.length = ts.length := by
                by_contra hne
                exact absurd (ih1.mpr hne) (by simp)
              obtain ⟨as, bs⟩ := p
              simp only [okLenEq] at ih2
              constructor
              · simp only [zipRead, hz]
                split_ifs <;> simp [isErr] <;> omega
              · simp only [zipRead, hz]
                split_ifs <;> simp [okLenEq, ih2]

/-- Projection of add_loss: one named component is appended. -/
theorem add_loss_nodes (b : LossBuilder) (name : String) (e : DyExpr) :
    (add_loss b name e).loss_nodes = b.loss_nodes ++ [(name, e)] := rfl

/-- The named nodes accumulated by the add_loss fold of lines 275-276. -/
theorem foldl_add_loss_nodes (nodes : List (String × DyExpr)) (b : LossBuilder) :
    (nodes.foldl (fun acc p => add_loss acc p.1 p.2) b).loss_nodes
      = b.loss_nodes ++ nodes := by
  induction nodes generalizing b with
  | nil => simp
  | cons p ps ih =>
      rw [List.foldl_cons, ih]
      simp [add_loss]

/-- The running sum of lines 275-277 started from an expression a over the
remaining nodes. -/
theorem foldSum_go_val (nodes : List (String × DyExpr)) :
    ∀ a : DyExpr,
      ∃ r, nodes.foldl
            (fun acc p => match acc with
                          | none => some p.2
                          | some l => some (addE l p.2))
            (some a) = some r
        ∧ r.value = a.value + (nodes.map fun p => p.2.value).sum := by
  induction nodes with
  | nil => intro a; exact ⟨a, rfl, by simp⟩
  | cons p ps ih =>
      intro a
      obtain ⟨r, hr, hv⟩ := ih (addE a p.2)
      refine ⟨r, hr, ?_⟩
      rw [hv]
      simp [addE]
      ring

/-- On a nonempty bundle the fold of lines 275-277 produces the sum of the
bundle values. -/
theorem foldSum_val (nodes : List (String × DyExpr)) (L : DyExpr)
    (h : foldSum nodes = some L) :
    L.value = (nodes.map fun p => p.2.value).sum := by
  cases nodes with
  | nil => simp [foldSum] at h
  | cons p ps =>
      obtain ⟨r, hr, hv⟩ := foldSum_go_val ps p.2
      rw [foldSum, List.foldl_cons] at h
      rw [show (match (none : Option DyExpr) with
                | none => some p.2
                | some l => some (addE l p.2)) = some p.2 from rfl] at h
      rw [hr] at h
      cases h
      rw [hv]
      simp

/-- C6: in training_step, a named bundle is recorded term by term and the
optimized scalar is the sum of the terms; a single scalar is recorded
under the fixed name loss; a non-null auxiliary loss is recorded under the
fixed name additional_loss; and the auxiliary computation receives exactly
the gradient-blocked negative of the primary loss (dy.nobackprop of the
negated combined scalar: empty gradient set, negated value). -/
theorem training_step_spec (nodes : List (String × DyExpr)) (L s : DyExpr)
    (f g : DyExpr → Option DyExpr)
    (hL : foldSum nodes = some L) :
    L.value = (nodes.map fun p => p.2.value).sum
    ∧ training_step (Sum.inr nodes) f =
        (match f (nobackpropE (negE L)) with
         | some a => some ((nodes.map fun p => p.2.value).sum + a.value,
                           nodes ++ [( "additional_loss", a)])
         | none => some ((nodes.map fun p => p.2.value).sum, nodes))
    ∧ training_step (Sum.inl s) g =
        (match g (nobackpropE (negE s)) with
         | some a => some (s.value + a.value,
                           [( "loss", s), ( "additional_loss", a)])
         | none => some (s.value, [( "loss", s)]))
    ∧ (nobackpropE (negE L)).grads = ∅
    ∧ (nobackpropE (negE L)).value = -L.value
    ∧ (nobackpropE (negE s)).grads = ∅ := by
  have hv := foldSum_val nodes L hL
  have hm : (nodes.foldl (fun acc p => add_loss acc p.1 p.2)
      (⟨[]⟩ : LossBuilder)).loss_nodes = nodes := by
    rw [foldl_add_loss_nodes]
    simp
  refine ⟨hv, ?_, ?_, rfl, rfl, rfl⟩
  · simp only [training_step, hL]
    cases hf : f (nobackpropE (negE L)) with
    | none =>
        simp only [hf, computeLoss, hm]
    | some a =>
        simp only [hf, computeLoss, add_loss_nodes, hm]
        simp
  · simp only [training_step]
    cases hg : g (nobackpropE (negE s)) with
    | none => simp [hg, computeLoss, add_loss_nodes]
    | some a => simp [hg, computeLoss, add_loss_nodes]

/-- The bundle of the loss-aggregation test: named terms a = 2.0 and
b = 3.0, no gradient sources. -/
def wNodes : List (String × DyExpr) := [( "a", ⟨2, ∅⟩), ( "b", ⟨3, ∅⟩)]

/-- C6 witness: the {a: 2.0, b: 3.0} bundle sums to 5.0 with breakdown
exactly the two named terms; a scalar primary loss of 7.0 with gradient
source set {1} and an auxiliary loss of 1.5 records additional_loss while
the auxiliary computation receives a gradient-free input. -/
theorem training_step_spec_witness :
    foldSum wNodes = some ⟨5, ∅⟩
    ∧ (5 : ℚ) = (wNodes.map fun p => p.2.value).sum
    ∧ training_step (Sum.inr wNodes) (fun _ => none)
        = some ((wNodes.map fun p => p.2.value).sum, wNodes)
    ∧ training_step (Sum.inl ⟨7, {1}⟩) (fun _ => some ⟨3/2, ∅⟩)
        = some ((7 : ℚ) + 3/2,
                [( "loss", ⟨7, {1}⟩), ( "additional_loss", ⟨3/2, ∅⟩)])
    ∧ (nobackpropE (negE (⟨5, ∅⟩ : DyExpr))).grads = ∅
    ∧ (nobackpropE (negE (⟨7, {1}⟩ : DyExpr))).grads = ∅ := by
  have hL : foldSum wNodes = some ⟨5, ∅⟩ := by
    simp only [foldSum, wNodes, List.foldl_cons, List.foldl_nil, addE]
    norm_num
  have h := training_step_spec wNodes ⟨5, ∅⟩ ⟨7, {1}⟩ (fun _ => none)
    (fun _ => some ⟨3/2, ∅⟩) hL
  exact ⟨hL, h.1, h.2.1, h.2.2.1, h.2.2.2.1, h.2.2.2.2.2⟩

/-! Frame lemmas: _augment_data_next_epoch only touches the corpus
parser's corpus and the subprocess handle. -/

theorem aug_src_data (t : SimpleTrainingTask S T) (p : Option Int) :
    (augment_data_next_epoch t p).1.src_data = t.src_data := by
  rcases ht : t.augmentation_handle with _ | u <;> rcases p with _ | rc <;>
    simp [augment_data_next_epoch, augTail, ht]

theorem aug_trg_data (t : SimpleTrainingTask S T) (p : Option Int) :
    (augment_data_next_epoch t p).1.trg_data = t.trg_data := by
  rcases ht : t.augmentation_handle with _ | u <;> rcases p with _ | rc <;>
    simp [augment_data_next_epoch, augTail, ht]

theorem aug_pack (t : SimpleTrainingTask S T) (p : Option Int) :
    (augment_data_next_epoch t p).1.pack = t.pack := by
  rcases ht : t.augmentation_handle with _ | u <;> rcases p with _ | rc <;>
    simp [augment_data_next_epoch, augTail, ht]

theorem aug_shuffle (t : SimpleTrainingTask S T) (p : Option Int) :
    (augment_data_next_epoch t p).1.shuffle = t.shuffle := by
  rcases ht : t.augmentation_handle with _ | u <;> rcases p with _ | rc <;>
    simp [augment_data_next_epoch, augTail, ht]

theorem aug_training_state (t : SimpleTrainingTask S T) (p : Option Int) :
    (augment_data_next_epoch t p).1.training_state = t.training_state := by
  rcases ht : t.augmentation_handle with _ | u <;> rcases p with _ | rc <;>
    simp [augment_data_next_epoch, augTail, ht]

/-! Field lemmas for advance_epoch. -/

theorem adv_src_data (t : SimpleTrainingTask S T) (sd : Nat) (p : Option Int) :
    (advance_epoch t sd p).1.src_data = t.src_data := by
  cases hr : t.reload_command <;> simp [advance_epoch, hr, aug_src_data]

theorem adv_trg_data (t : SimpleTrainingTask S T) (sd : Nat) (p : Option Int) :
    (advance_epoch t sd p).1.trg_data = t.trg_data := by
  cases hr : t.reload_command <;> simp [advance_epoch, hr, aug_trg_data]

theorem adv_pack (t : SimpleTrainingTask S T) (sd : Nat) (p : Option Int) :
    (advance_epoch t sd p).1.pack = t.pack := by
  cases hr : t.reload_command <;> simp [advance_epoch, hr, aug_pack]

theorem adv_shuffle (t : SimpleTrainingTask S T) (sd : Nat) (p : Option Int) :
    (advance_epoch t sd p).1.shuffle = t.shuffle := by
  cases hr : t.reload_command <;> simp [advance_epoch, hr, aug_shuffle]

theorem adv_epoch_seed (t : SimpleTrainingTask S T) (sd : Nat) (p : Option Int) :
    (advance_epoch t sd p).1.training_state.epoch_seed = sd := by
  cases hr : t.reload_command <;> simp [advance_epoch, hr]

theorem adv_epoch_num (t : SimpleTrainingTask S T) (sd : Nat) (p : Option Int) :
    (advance_epoch t sd p).1.training_state.epoch_num
      = t.training_state.epoch_num + 1 := by
  cases hr : t.reload_command <;>
    simp [advance_epoch, hr, aug_training_state]

theorem adv_steps (t : SimpleTrainingTask S T) (sd : Nat) (p : Option Int) :
    (advance_epoch t sd p).1.training_state.steps_into_epoch = 0 := by
  cases hr : t.reload_command <;> simp [advance_epoch, hr]

theorem adv_src_batches (t : SimpleTrainingTask S T) (sd : Nat) (p : Option Int) :
    (advance_epoch t sd p).1.src_batches
      = (t.pack sd t.src_data t.trg_data).1 := by
  cases hr : t.reload_command <;>
    simp [advance_epoch, hr, aug_pack, aug_src_data, aug_trg_data]

theorem adv_trg_batches (t : SimpleTrainingTask S T) (sd : Nat) (p : Option Int) :
    (advance_epoch t sd p).1.trg_batches
      = (t.pack sd t.src_data t.trg_data).2 := by
  cases hr : t.reload_command <;>
    simp [advance_epoch, hr, aug_pack, aug_src_data, aug_trg_data]

theorem adv_order (t : SimpleTrainingTask S T) (sd : Nat) (p : Option Int) :
    (advance_epoch t sd p).1.minibatch_order
      = t.shuffle sd ((t.pack sd t.src_data t.trg_data).1).length := by
  cases hr : t.reload_command <;>
    simp [advance_epoch, hr, aug_pack, aug_src_data, aug_trg_data, aug_shuffle]

theorem adv_events (t : SimpleTrainingTask S T) (sd : Nat) (p : Option Int) :
    (advance_epoch t sd p).2
      = augEvents t p
        ++ [Event.reseed sd, Event.repack, Event.shuffleEv,
            Event.notify (cur_num_sentences (advance_epoch t sd p).1)] := by
  cases hr : t.reload_command <;>
    simp [advance_epoch, augEvents, hr, cur_num_sentences]

/-- C5: advance_epoch stores the freshly drawn epoch seed (the
random.randint(1,2147483647) contract bounds it within [1, 2^31-1]),
increments epoch_num by exactly one, resets steps_into_epoch to 0, sets
minibatch_order to a permutation of the batch indices
0..cur_num_minibatches()-1 of the repacked batches, and performs its
effects in the order reseed, repack, shuffle, notification (after the
augmentation prefix, which is empty when no reload command is
configured). -/
theorem advance_epoch_spec (t : SimpleTrainingTask S T) (sd : Nat)
    (p : Option Int) (h1 : 1 ≤ sd) (h2 : sd ≤ 2147483647)
    (hperm : ∀ s n, (t.shuffle s n).Perm (List.range n)) :
    (advance_epoch t sd p).1.training_state.epoch_seed = sd
    ∧ 1 ≤ (advance_epoch t sd p).1.training_state.epoch_seed
    ∧ (advance_epoch t sd p).1.training_state.epoch_seed ≤ 2147483647
    ∧ (advance_epoch t sd p).1.training_state.epoch_num
        = t.training_state.epoch_num + 1
    ∧ (advance_epoch t sd p).1.training_state.steps_into_epoch = 0
    ∧ (advance_epoch t sd p).1.minibatch_order.Perm
        (List.range (cur_num_minibatches (advance_epoch t sd p).1))
    ∧ (advance_epoch t sd p).2
        = augEvents t p
          ++ [Event.reseed sd, Event.repack, Event.shuffleEv,
              Event.notify (cur_num_sentences (advance_epoch t sd p).1)]
    ∧ (t.reload_command = none → augEvents t p = []) := by
  refine ⟨adv_epoch_seed t sd p, ?_, ?_, adv_epoch_num t sd p,
          adv_steps t sd p, ?_, adv_events t sd p, ?_⟩
  · rw [adv_epoch_seed]
    exact h1
  · rw [adv_epoch_seed]
    exact h2
  · rw [adv_order]
    rw [show cur_num_minibatches (advance_epoch t sd p).1
        = ((t.pack sd t.src_data t.trg_data).1).length from by
      rw [cur_num_minibatches, adv_src_batches]]
    exact hperm sd _
  · intro h
    simp [augEvents, h]

/-- C5 witness at baseTask with seed 7 and no reload command. -/
theorem advance_epoch_spec_witness :
    1 ≤ 7 ∧ 7 ≤ 2147483647
    ∧ ((advance_epoch baseTask 7 none).1.training_state.epoch_seed = 7
    ∧ 1 ≤ (advance_epoch baseTask 7 none).1.training_state.epoch_seed
    ∧ (advance_epoch baseTask 7 none).1.training_state.epoch_seed ≤ 2147483647
    ∧ (advance_epoch baseTask 7 none).1.training_state.epoch_num
        = baseTask.training_state.epoch_num + 1
    ∧ (advance_epoch baseTask 7 none).1.training_state.steps_into_epoch = 0
    ∧ (advance_epoch baseTask 7 none).1.minibatch_order.Perm
        (List.range (cur_num_minibatches (advance_epoch baseTask 7 none).1))
    ∧ (advance_epoch baseTask 7 none).2
        = augEvents baseTask none
          ++ [Event.reseed 7, Event.repack, Event.shuffleEv,
              Event.notify (cur_num_sentences (advance_epoch baseTask 7 none).1)]
    ∧ (baseTask.reload_command = none → augEvents baseTask none = [])) :=
  ⟨by decide, by decide,
   advance_epoch_spec baseTask 7 none (by decide) (by decide)
     (fun _ _ => List.Perm.refl _)⟩

/-- C7: two advance_epoch runs over the same corpus data with the same
(deterministic-given-seed) batcher and shuffler and the same drawn epoch
seed produce the same minibatch_order, the same packed batches, and hence
the same drained sequence of (src,trg) batch pairs, regardless of any
other task state (epoch counters, old batches, learning rate, reload or
augmentation state, poll results). -/
theorem advance_epoch_deterministic (t1 t2 : SimpleTrainingTask S T)
    (sd : Nat) (p1 p2 : Option Int)
    (hsrc : t1.src_data = t2.src_data) (htrg : t1.trg_data = t2.trg_data)
    (hpack : t1.pack = t2.pack) (hshuf : t1.shuffle = t2.shuffle) :
    (advance_epoch t1 sd p1).1.minibatch_order
        = (advance_epoch t2 sd p2).1.minibatch_order
    ∧ (advance_epoch t1 sd p1).1.src_batches
        = (advance_epoch t2 sd p2).1.src_batches
    ∧ (advance_epoch t1 sd p1).1.trg_batches
        = (advance_epoch t2 sd p2).1.trg_batches
    ∧ (advance_epoch t1 sd p1).1.minibatch_order.map
          (fun b => ((advance_epoch t1 sd p1).1.src_batches.get? b,
                     (advance_epoch t1 sd p1).1.trg_batches.get? b))
        = (advance_epoch t2 sd p2).1.minibatch_order.map
          (fun b => ((advance_epoch t2 sd p2).1.src_batches.get? b,
                     (advance_epoch t2 sd p2).1.trg_batches.get? b)) := by
  have hsb : (advance_epoch t1 sd p1).1.src_batches
      = (advance_epoch t2 sd p2).1.src_batches := by
    rw [adv_src_batches, adv_src_batches, hsrc, htrg, hpack]
  have htb : (advance_epoch t1 sd p1).1.trg_batches
      = (advance_epoch t2 sd p2).1.trg_batches := by
    rw [adv_trg_batches, adv_trg_batches, hsrc, htrg, hpack]
  have ho : (advance_epoch t1 sd p1).1.minibatch_order
      = (advance_epoch t2 sd p2).1.minibatch_order := by
    rw [adv_order, adv_order, hsrc, htrg, hpack, hshuf]
  exact ⟨ho, hsb, htb, by rw [ho, hsb, htb]⟩

/-- A task with the same corpus and collaborators as baseTask but
different counters, batches, learning rate and augmentation state. -/
def t7task : SimpleTrainingTask Nat Nat :=
  { baseTask with
      training_state := ⟨5, 5, 5, 5, 5⟩,
      learning_rate := 2,
      src_batches := [],
      trg_batches := [],
      minibatch_order := [9],
      reload_command := some "true",
      augmentation_handle := some (),
      corpus_parser_corpus := ([7], [7]) }

/-- C7 witness: baseTask and t7task share corpus and collaborators only,
yet advance_epoch with the same seed yields identical orders, batches and
drained pair sequences. -/
theorem advance_epoch_deterministic_witness :
    (advance_epoch baseTask 7 none).1.minibatch_order
        = (advance_epoch t7task 7 (some 0)).1.minibatch_order
    ∧ (advance_epoch baseTask 7 none).1.src_batches
        = (advance_epoch t7task 7 (some 0)).1.src_batches
    ∧ (advance_epoch baseTask 7 none).1.trg_batches
        = (advance_epoch t7task 7 (some 0)).1.trg_batches
    ∧ (advance_epoch baseTask 7 none).1.minibatch_order.map
          (fun b => ((advance_epoch baseTask 7 none).1.src_batches.get? b,
                     (advance_epoch baseTask 7 none).1.trg_batches.get? b))
        = (advance_epoch t7task 7 (some 0)).1.minibatch_order.map
          (fun b => ((advance_epoch t7task 7 (some 0)).1.src_batches.get? b,
                     (advance_epoch t7task 7 (some 0)).1.trg_batches.get? b)) :=
  advance_epoch_deterministic baseTask t7task 7 none (some 0) rfl rfl rfl rfl

/-- C9: with a reload command configured and an augmentation subprocess
outstanding at advance_epoch time: when the poll shows the subprocess has
not exited, the training corpus, the corpus parser corpus and the batches
derived from the (unchanged) corpus are unaffected and no blocking wait
occurs; when it has exited, the corpus parser corpus is re-read and a
regeneration for the next epoch is launched in the background, again
without any wait. -/
theorem augmentation_fallback (t : SimpleTrainingTask S T) (sd : Nat)
    (rc : Int) (hrl : t.reload_command.isSome = true)
    (hh : t.augmentation_handle = some ()) :
    (advance_epoch t sd none).1.src_data = t.src_data
    ∧ (advance_epoch t sd none).1.trg_data = t.trg_data
    ∧ (advance_epoch t sd none).1.corpus_parser_corpus = t.corpus_parser_corpus
    ∧ (advance_epoch t sd none).1.src_batches
        = (t.pack sd t.src_data t.trg_data).1
    ∧ Event.waitEv ∉ (advance_epoch t sd none).2
    ∧ (advance_epoch t sd (some rc)).1.corpus_parser_corpus
        = t.readCorpusFn t.corpus_parser_corpus
    ∧ (advance_epoch t sd (some rc)).1.src_data = t.src_data
    ∧ Event.launch t.training_state.epoch_num ∈ (advance_epoch t sd (some rc)).2
    ∧ Event.waitEv ∉ (advance_epoch t sd (some rc)).2 := by
  obtain ⟨cmd, hcmd⟩ := Option.isSome_iff_exists.mp hrl
  have hcor : ∀ p : Option Int,
      (advance_epoch t sd p).1.corpus_parser_corpus
        = (augment_data_next_epoch t p).1.corpus_parser_corpus := by
    intro p
    simp [advance_epoch, hcmd]
  have hev : ∀ p : Option Int,
      (advance_epoch t sd p).2
        = (augment_data_next_epoch t p).2
          ++ [Event.reseed sd, Event.repack, Event.shuffleEv,
              Event.notify (cur_num_sentences (advance_epoch t sd p).1)] := by
    intro p
    rw [adv_events]
    simp [augEvents, hcmd]
  refine ⟨adv_src_data t sd none, adv_trg_data t sd none, ?_,
          adv_src_batches t sd none, ?_, ?_, adv_src_data t sd (some rc),
          ?_, ?_⟩
  · rw [hcor]
    simp [augment_data_next_epoch, augTail, hh]
  · rw [hev]
    simp [augment_data_next_epoch, augTail, hh]
  · rw [hcor]
    simp [augment_data_next_epoch, augTail, hh]
  · rw [hev]
    simp [augment_data_next_epoch, augTail, hh]
  · rw [hev]
    simp [augment_data_next_epoch, augTail, hh]

/-- A task with a reload command configured and a subprocess handle
outstanding. -/
def t9task : SimpleTrainingTask Nat Nat :=
  { baseTask with reload_command := some "true",
                  augmentation_handle := some () }

/-- C9 witness at t9task with seed 7 and exit code 0. -/
theorem augmentation_fallback_witness :
    (advance_epoch t9task 7 none).1.src_data = t9task.src_data
    ∧ (advance_epoch t9task 7 none).1.trg_data = t9task.trg_data
    ∧ (advance_epoch t9task 7 none).1.corpus_parser_corpus
        = t9task.corpus_parser_corpus
    ∧ (advance_epoch t9task 7 none).1.src_batches
        = (t9task.pack 7 t9task.src_data t9task.trg_data).1
    ∧ Event.waitEv ∉ (advance_epoch t9task 7 none).2
    ∧ (advance_epoch t9task 7 (some 0)).1.corpus_parser_corpus
        = t9task.readCorpusFn t9task.corpus_parser_corpus
    ∧ (advance_epoch t9task 7 (some 0)).1.src_data = t9task.src_data
    ∧ Event.launch t9task.training_state.epoch_num
        ∈ (advance_epoch t9task 7 (some 0)).2
    ∧ Event.waitEv ∉ (advance_epoch t9task 7 (some 0)).2 :=
  augmentation_fallback t9task 7 0 rfl rfl

/-! Cursor lemmas for the next_minibatch generator. -/

theorem incSteps_withSteps (t : SimpleTrainingTask S T) (n : Nat) :
    incSteps (withSteps t n) = withSteps t (n + 1) := rfl

theorem withSteps_eq_self (t : SimpleTrainingTask S T) (n : Nat)
    (h : t.training_state.steps_into_epoch = n) : withSteps t n = t := by
  subst h
  rfl

theorem withSteps_steps (t : SimpleTrainingTask S T) (n : Nat) :
    (withSteps t n).training_state.steps_into_epoch = n := rfl

theorem withSteps_pack (t : SimpleTrainingTask S T) (n : Nat) :
    (withSteps t n).pack = t.pack := rfl

theorem withSteps_shuffle (t : SimpleTrainingTask S T) (n : Nat) :
    (withSteps t n).shuffle = t.shuffle := rfl

theorem withSteps_src_data (t : SimpleTrainingTask S T) (n : Nat) :
    (withSteps t n).src_data = t.src_data := rfl

theorem withSteps_trg_data (t : SimpleTrainingTask S T) (n : Nat) :
    (withSteps t n).trg_data = t.trg_data := rfl

/-- A mid-epoch pull consumes the head batch index, defers the step
increment of the previous yield, and performs no advance_epoch call. -/
theorem pull_cons (tk : SimpleTrainingTask S T) (b : Nat) (rest : List Nat)
    (i : Nat × Option Int) (h1 : b < tk.src_batches.length)
    (h2 : b < tk.trg_batches.length) :
    pull ⟨tk, b :: rest, true⟩ i
      = some ((tk.src_batches.get ⟨b, h1⟩, tk.trg_batches.get ⟨b, h2⟩),
              ⟨incSteps tk, rest, true⟩, 0) := by
  have e1 : (incSteps tk).src_batches.get? b
      = some (tk.src_batches.get ⟨b, h1⟩) := by
    show tk.src_batches.get? b = _
    rw [List.get?_eq_get h1]
  have e2 : (incSteps tk).trg_batches.get? b
      = some (tk.trg_batches.get ⟨b, h2⟩) := by
    show tk.trg_batches.get? b = _
    rw [List.get?_eq_get h2]
  have hpull : pull ⟨tk, b :: rest, true⟩ i
      = (match (incSteps tk).src_batches.get? b,
               (incSteps tk).trg_batches.get? b with
         | some sb, some tb =>
             some ((sb, tb), (⟨incSteps tk, rest, true⟩ : Cursor S T), 0)
         | _, _ => none) := rfl
  rw [hpull, e1, e2]

/-- A pull at an exhausted permutation performs exactly one advance_epoch
call (on the task with the pending increment applied) and yields the head
of the new epoch. -/
theorem pull_empty (u u0 : SimpleTrainingTask S T) (pend : Bool)
    (i : Nat × Option Int) (hu0 : (if pend then incSteps u else u) = u0)
    (b : Nat) (rest : List Nat)
    (horder : (advance_epoch u0 i.1 i.2).1.minibatch_order = b :: rest)
    (h1 : b < (advance_epoch u0 i.1 i.2).1.src_batches.length)
    (h2 : b < (advance_epoch u0 i.1 i.2).1.trg_batches.length) :
    pull ⟨u, [], pend⟩ i
      = some (((advance_epoch u0 i.1 i.2).1.src_batches.get ⟨b, h1⟩,
               (advance_epoch u0 i.1 i.2).1.trg_batches.get ⟨b, h2⟩),
              ⟨(advance_epoch u0 i.1 i.2).1, rest, true⟩, 1) := by
  subst hu0
  simp only [pull, horder, List.get?_eq_get h1, List.get?_eq_get h2]

/-- Draining a mid-epoch cursor: each pull observes the step counter of
the previous yield incremented, no advance_epoch runs, and the batches
stay untouched. -/
theorem pullTrace_drain (t : SimpleTrainingTask S T) (r : List Nat) :
    ∀ (s0 : Nat) (ss : List (Nat × Option Int)),
      ss.length = r.length →
      (∀ b ∈ r, b < t.src_batches.length) →
      (∀ b ∈ r, b < t.trg_batches.length) →
      pullTrace ⟨withSteps t s0, r, true⟩ ss
        = some ((List.range r.length).map (fun k => (s0 + k + 1, 0)),
                ⟨withSteps t (s0 + r.length), [], true⟩) := by
  induction r with
  | nil =>
      intro s0 ss hlen _ _
      rw [List.length_eq_zero.mp hlen]
      simp [pullTrace]
  | cons b r' ih =>
      intro s0 ss hlen hsrc htrg
      cases ss with
      | nil => simp at hlen
      | cons i ss' =>
          have hb1 : b < t.src_batches.length := hsrc b (by simp)
          have hb2 : b < t.trg_batches.length := htrg b (by simp)
          rw [pullTrace, pull_cons (withSteps t s0) b r' i hb1 hb2,
              incSteps_withSteps]
          dsimp only
          rw [ih (s0 + 1) ss' (by simpa using hlen)
                (fun x hx => hsrc x (by simp [hx]))
                (fun x hx => htrg x (by simp [hx]))]
          dsimp only
          rw [withSteps_steps]
          have hcur : s0 + 1 + r'.length = s0 + (b :: r').length := by
            simp
            omega
          have hlist : (List.range (b :: r').length).map
                (fun k => (s0 + k + 1, (0 : Nat)))
              = (s0 + 1, 0) :: (List.range r'.length).map
                  (fun k => (s0 + 1 + k + 1, 0)) := by
            have hfun : ((fun k => (s0 + k + 1, (0 : Nat))) ∘ Nat.succ)
                = fun k => (s0 + 1 + k + 1, (0 : Nat)) := by
              funext k
              simp only [Function.comp_apply]
              congr 1
              omega
            rw [List.length_cons, List.range_succ_eq_map, List.map_cons,
                List.map_map, hfun]
          rw [hlist, hcur]

/-- pullTrace over a concatenation of input streams. -/
theorem pullTrace_append (l1 l2 : List (Nat × Option Int)) :
    ∀ c : Cursor S T,
      pullTrace c (l1 ++ l2)
        = match pullTrace c l1 with
          | none => none
          | some (tr, c1) =>
              match pullTrace c1 l2 with
              | none => none
              | some (tr2, cf) => some (tr ++ tr2, cf) := by
  induction l1 with
  | nil =>
      intro c
      simp only [List.nil_append, pullTrace]
      cases h : pullTrace c l2 with
      | none => rfl
      | some x => cases x with
          | mk tr2 cf => rfl
  | cons i l1' ih =>
      intro c
      simp only [List.cons_append, pullTrace]
      cases hp : pull c i with
      | none => rfl
      | some x =>
          obtain ⟨pair, c1, a⟩ := x
          dsimp only
          rw [show List.append l1' l2 = l1' ++ l2 from rfl, ih c1]
          cases h1 : pullTrace c1 l1' with
          | none => rfl
          | some y =>
              obtain ⟨tr, c2⟩ := y
              dsimp only
              cases h2 : pullTrace c2 l2 with
              | none => rfl
              | some z =>
                  obtain ⟨tr2, cf⟩ := z
                  simp

/-- C4: starting a fresh next_minibatch generator and pulling
cur_num_minibatches()+1 times (the first epoch holds mid.length + 1
minibatches): the first pull triggers exactly one advance_epoch, the
following mid.length pulls trigger none, and the pull right after
draining the whole epoch again triggers exactly one advance_epoch before
yielding; the steps_into_epoch value observed at the k-th consumed pull of
an epoch is k-1 (the increment runs only after the pair was handed out).
The hypotheses are the collaborator contracts: np.random.shuffle permutes
the index range, and batcher.pack returns index-aligned nonempty batch
lists. -/
theorem next_minibatch_epoch_boundary (t : SimpleTrainingTask S T)
    (inp0 last : Nat × Option Int) (mid : List (Nat × Option Int))
    (hperm : ∀ s n, (t.shuffle s n).Perm (List.range n))
    (hlen : ∀ s, ((t.pack s t.src_data t.trg_data).2).length
        = ((t.pack s t.src_data t.trg_data).1).length)
    (hne : ∀ s, 1 ≤ ((t.pack s t.src_data t.trg_data).1).length)
    (hmid : mid.length + 1
        = ((t.pack inp0.1 t.src_data t.trg_data).1).length) :
    (pullTrace (freshCursor t) (inp0 :: (mid ++ [last]))).map Prod.fst
      = some ((0, 1) :: (((List.range mid.length).map fun k => (k + 1, 0))
          ++ [(0, 1)])) := by
  have hsb1 : (advance_epoch t inp0.1 inp0.2).1.src_batches.length
      = mid.length + 1 := by
    rw [adv_src_batches, ← hmid]
  have htb1 : (advance_epoch t inp0.1 inp0.2).1.trg_batches.length
      = mid.length + 1 := by
    rw [adv_trg_batches, hlen inp0.1, ← hmid]
  have hop : (advance_epoch t inp0.1 inp0.2).1.minibatch_order.Perm
      (List.range (mid.length + 1)) := by
    rw [adv_order, hmid]
    exact hperm _ _
  have holen : (advance_epoch t inp0.1 inp0.2).1.minibatch_order.length
      = mid.length + 1 := by
    rw [hop.length_eq, List.length_range]
  have hmem : ∀ x ∈ (advance_epoch t inp0.1 inp0.2).1.minibatch_order,
      x < mid.length + 1 := fun x hx => List.mem_range.mp (hop.mem_iff.mp hx)
  cases horder : (advance_epoch t inp0.1 inp0.2).1.minibatch_order with
  | nil =>
      rw [horder] at holen
      simp at holen
  | cons b0 rest0 =>
      rw [horder] at hmem holen
      have hb0s : b0 < (advance_epoch t inp0.1 inp0.2).1.src_batches.length := by
        rw [hsb1]
        exact hmem b0 (by simp)
      have hb0t : b0 < (advance_epoch t inp0.1 inp0.2).1.trg_batches.length := by
        rw [htb1]
        exact hmem b0 (by simp)
      have hrest0len : rest0.length = mid.length := by
        simpa using holen
      have hrs : ∀ x ∈ rest0,
          x < (advance_epoch t inp0.1 inp0.2).1.src_batches.length := by
        intro x hx
        rw [hsb1]
        exact hmem x (by simp [hx])
      have hrt : ∀ x ∈ rest0,
          x < (advance_epoch t inp0.1 inp0.2).1.trg_batches.length := by
        intro x hx
        rw [htb1]
        exact hmem x (by simp [hx])
      have hp1 := pull_empty t t false inp0 rfl b0 rest0 horder hb0s hb0t
      simp only [freshCursor]
      rw [pullTrace, hp1]
      dsimp only
      rw [pullTrace_append mid [last]
            ⟨(advance_epoch t inp0.1 inp0.2).1, rest0, true⟩]
      have hdrain := pullTrace_drain (advance_epoch t inp0.1 inp0.2).1 rest0 0
        mid (by rw [hrest0len]) hrs hrt
      rw [withSteps_eq_self _ _ (adv_steps t inp0.1 inp0.2)] at hdrain
      rw [hdrain]
      dsimp only
      -- the boundary pull after draining the whole epoch
      have hps : (withSteps (advance_epoch t inp0.1 inp0.2).1
          (0 + rest0.length + 1)).pack = t.pack := by
        rw [withSteps_pack, adv_pack]
      have hsd : (withSteps (advance_epoch t inp0.1 inp0.2).1
          (0 + rest0.length + 1)).src_data = t.src_data := by
        rw [withSteps_src_data, adv_src_data]
      have htd : (withSteps (advance_epoch t inp0.1 inp0.2).1
          (0 + rest0.length + 1)).trg_data = t.trg_data := by
        rw [withSteps_trg_data, adv_trg_data]
      have hsh : (withSteps (advance_epoch t inp0.1 inp0.2).1
          (0 + rest0.length + 1)).shuffle = t.shuffle := by
        rw [withSteps_shuffle, adv_shuffle]
      have h2sb : (advance_epoch (withSteps (advance_epoch t inp0.1 inp0.2).1
            (0 + rest0.length + 1)) last.1 last.2).1.src_batches
          = (t.pack last.1 t.src_data t.trg_data).1 := by
        rw [adv_src_batches, hps, hsd, htd]
      have h2tb : (advance_epoch (withSteps (advance_epoch t inp0.1 inp0.2).1
            (0 + rest0.length + 1)) last.1 last.2).1.trg_batches
          = (t.pack last.1 t.src_data t.trg_data).2 := by
        rw [adv_trg_batches, hps, hsd, htd]
      have h2perm : (advance_epoch (withSteps (advance_epoch t inp0.1 inp0.2).1
            (0 + rest0.length + 1)) last.1 last.2).1.minibatch_order.Perm
          (List.range ((t.pack last.1 t.src_data t.trg_data).1).length) := by
        rw [adv_order, hps, hsd, htd, hsh]
        exact hperm _ _
      have h2olen : (advance_epoch (withSteps (advance_epoch t inp0.1 inp0.2).1
            (0 + rest0.length + 1)) last.1 last.2).1.minibatch_order.length
          = ((t.pack last.1 t.src_data t.trg_data).1).length := by
        rw [h2perm.length_eq, List.length_range]
      have h2mem : ∀ x ∈ (advance_epoch (withSteps
            (advance_epoch t inp0.1 inp0.2).1
            (0 + rest0.length + 1)) last.1 last.2).1.minibatch_order,
          x < ((t.pack last.1 t.src_data t.trg_data).1).length :=
        fun x hx => List.mem_range.mp (h2perm.mem_iff.mp hx)
      cases horder2 : (advance_epoch (withSteps
            (advance_epoch t inp0.1 inp0.2).1
            (0 + rest0.length + 1)) last.1 last.2).1.minibatch_order with
      | nil =>
          rw [horder2] at h2olen
          have := hne last.1
          simp at h2olen
          omega
      | cons b2 rest2 =>
          rw [horder2] at h2mem
          have hb2s : b2 < (advance_epoch (withSteps
                (advance_epoch t inp0.1 inp0.2).1
                (0 + rest0.length + 1)) last.1 last.2).1.src_batches.length := by
            rw [h2sb]
            exact h2mem b2 (by simp)
          have hb2t : b2 < (advance_epoch (withSteps
                (advance_epoch t inp0.1 inp0.2).1
                (0 + rest0.length + 1)) last.1 last.2).1.trg_batches.length := by
            rw [h2tb, hlen last.1]
            exact h2mem b2 (by simp)
          have hp2 := pull_empty
            (withSteps (advance_epoch t inp0.1 inp0.2).1 (0 + rest0.length))
            (withSteps (advance_epoch t inp0.1 inp0.2).1 (0 + rest0.length + 1))
            true last rfl b2 rest2 horder2 hb2s hb2t
          rw [pullTrace, hp2]
          dsimp only
          rw [pullTrace]
          dsimp only
          rw [adv_steps, adv_steps]
          simp [hrest0len]

/-- C4 witness at baseTask: 3 batches per epoch, 4 pulls; the observed
(steps_into_epoch, advance_epoch count) pairs are (0,1), (1,0), (2,0),
then (0,1) at the epoch boundary. -/
theorem next_minibatch_epoch_boundary_witness :
    (pullTrace (freshCursor baseTask)
        ((4, none) :: ([(5, none), (6, none)] ++ [(7, none)]))).map Prod.fst
      = some ((0, 1)
          :: (((List.range 2).map fun k => (k + 1, 0)) ++ [(0, 1)])) :=
  next_minibatch_epoch_boundary baseTask (4, none) (7, none)
    [(5, none), (6, none)] (fun _ _ => List.Perm.refl _) (fun _ => rfl)
    (fun _ => by show 1 ≤ 3; decide) rfl

end Xnmt
